import Mathlib

/-!
# HealthGo optimistic-update synchronization core: a verification development

Shallow embedding of the optimistic-update synchronization core of the
HealthGo client (`sync-queue.js` — the refresh-entry variant — together with
the aggregation and dispatch helpers of `api-client.js`), and proofs of the
behavioural properties stated in the design specification.

Modelling conventions:
* JS objects become Lean structures; absent/`undefined`/`null` string or
  timestamp fields become `Option`; JS boolean fields default to `false`.
* ISO timestamp strings are modelled as `Nat` (their comparison order).
* Task ids and statuses stay `String`, exactly as compared in the source.
* Counters (`executionCount`, `targetCount`) are modelled as `Int`, matching
  the `Math.max`/`Math.min` arithmetic of the source.
* The backend is an oracle `Nat → CallResult` giving the result of the i-th
  backend call made by the drain loop (`ApiClient.getTasks` during a refresh,
  `ApiClient.updateTaskStatus` during an action dispatch); an HTTP 401 turns
  into the `SESSION_EXPIRED` signal as in `api-client.js`.
* `await`-ed backoff waits are recorded in a trace rather than really waited.
-/

namespace HealthGo

/-- A raw per-unit task record as returned by the backend
(`RawActionRecord` in the spec; the fields used by the core). -/
structure RawRecord where
  id : String
  action_template_id : Option String
  action_title : Option String
  team_name : Option String
  status : String
  created_at : Nat
  finished_at : Option Nat
  updated_at : Nat
deriving Repr, DecidableEq

/-- A client-side task aggregate (`TaskAggregate`): a group of raw records
sharing a template id, with derived counts and conflict markers. -/
structure TaskAggregate where
  id : String
  name : String
  teamName : Option String
  tasks : List RawRecord
  executionCount : Int
  targetCount : Int
  isCompleted : Bool
  hasConflict : Bool
  conflictTimestamp : Option Nat
deriving Repr, DecidableEq

/-- An action entry of the sync queue (`type: 'action'` in `sync-queue.js`):
a pending increment/decrement intent with its retry bookkeeping. -/
structure ActionEntry where
  taskId : String
  action : String
  originalTask : Option TaskAggregate
  timestamp : Nat
  retryCount : Nat
  maxRetries : Nat
deriving Repr, DecidableEq

/-- A queue entry: either an action request or a refresh request
(the element-level `type` tag of `sync-queue.js`). -/
inductive QueueEntry where
  | action (a : ActionEntry)
  | refresh (timestamp : Nat)
deriving Repr, DecidableEq

/-- `item.type === 'refresh'`. -/
def isRefreshEntry : QueueEntry → Bool
  | .refresh _ => true
  | .action _ => false

/-- `item.type === 'action'`. -/
def isActionEntry (e : QueueEntry) : Bool := !isRefreshEntry e

/-- `update.retryCount = (update.retryCount || 0) + 1` in the retry handler. -/
def bumpRetry (a : ActionEntry) : ActionEntry := { a with retryCount := a.retryCount + 1 }

/-- Reinsertion of a failed entry before any refresh request:
`refreshIndex = queue.findIndex(item => item.type === 'refresh');`
`if (refreshIndex >= 0) queue.splice(refreshIndex, 0, update); else queue.push(update)`. -/
def insertBeforeRefresh : List QueueEntry → QueueEntry → List QueueEntry
  | [], e => [e]
  | x :: xs, e => if isRefreshEntry x then e :: x :: xs else x :: insertBeforeRefresh xs e

/-! ## Record selection (api-client.js / sync-queue.js)

The source selects records by stable-sorting (ES2019 `Array.prototype.sort`
is stable) and taking the first element.  The head of a stable descending
sort is the first-encountered element with the maximal key; the head of a
stable ascending sort is the first-encountered element with the minimal key.
We embed the selections directly in that form. -/

/-- First-encountered record with maximal `key`
(head of a stable sort by `(a, b) => key b - key a`). -/
def selectFirstMaxBy (key : RawRecord → Nat) : List RawRecord → Option RawRecord
  | [] => none
  | x :: xs => some (xs.foldl (fun best y => if key best < key y then y else best) x)

/-- First-encountered record with minimal `key`
(head of a stable sort by `(a, b) => key a - key b`). -/
def selectFirstMinBy (key : RawRecord → Nat) : List RawRecord → Option RawRecord
  | [] => none
  | x :: xs => some (xs.foldl (fun best y => if key y < key best then y else best) x)

/-- `new Date(t.finished_at || t.created_at)`: the revert heuristic's sort key. -/
def dateKeyDone (r : RawRecord) : Nat := r.finished_at.getD r.created_at

/-- `markOldestPendingAsDone`'s target choice: the `PENDING` record with
minimal `created_at` (`sort((a, b) => a.created_at - b.created_at)[0]`);
`none` models the thrown `'No pending tasks to complete'`. -/
def selectOldestPending (agg : TaskAggregate) : Option RawRecord :=
  selectFirstMinBy (fun r => r.created_at) (agg.tasks.filter (fun r => r.status == "PENDING"))

/-- `reopenNewestDoneTask`'s target choice: the `DONE` record with maximal
`created_at` (`sort((a, b) => b.created_at - a.created_at)[0]`);
`none` models the thrown `'No done tasks to reopen'`. -/
def selectNewestDone (agg : TaskAggregate) : Option RawRecord :=
  selectFirstMaxBy (fun r => r.created_at) (agg.tasks.filter (fun r => r.status == "DONE"))

/-! ## Aggregation (api-client.js, `aggregateTasks`) -/

/-- `const templateId = task.action_template_id || task.id`. -/
def templateKey (t : RawRecord) : String := t.action_template_id.getD t.id

/-- `task.status === 'DONE' || task.status === 'DELIVERED'`. -/
def isDoneStatus (s : String) : Bool := s == "DONE" || s == "DELIVERED"

/-- The mutable group object of `aggregateTasks` before the final
`isCompleted` computation. -/
structure TaskGroup where
  id : String
  name : String
  teamName : Option String
  tasks : List RawRecord
  executionCount : Nat
  targetCount : Nat
deriving Repr, DecidableEq

/-- The fresh group object `aggregateTasks` creates on first sight of a
template key (`name` falls back to `'Unnamed Task'`). -/
def newGroupFor (t : RawRecord) : TaskGroup :=
  { id := templateKey t, name := t.action_title.getD "Unnamed Task",
    teamName := t.team_name, tasks := [], executionCount := 0, targetCount := 0 }

/-- The per-record mutation of the matching group: push the record, bump
`targetCount`, and bump `executionCount` when the record counts as done. -/
def touchGroup (t : RawRecord) (g : TaskGroup) : TaskGroup :=
  { g with tasks := g.tasks ++ [t],
           targetCount := g.targetCount + 1,
           executionCount := g.executionCount + (if isDoneStatus t.status then 1 else 0) }

/-- One iteration of `aggregateTasks`' `forEach` body: create the group for
the record's template key if absent (keyed object insertion keeps insertion
order for non-numeric string keys), then push the record and bump the
counters of that group. -/
def addRecord (groups : List TaskGroup) (t : RawRecord) : List TaskGroup :=
  let key := templateKey t
  let groups1 :=
    if groups.any (fun g => g.id == key) then groups
    else groups ++ [newGroupFor t]
  groups1.map (fun g => if g.id == key then touchGroup t g else g)

/-- `aggregateTasks`: group all raw records by template id, then mark each
group `isCompleted` when every unit is done (the `hasConflict` and
`conflictTimestamp` fields are absent, i.e. falsy, on a fresh aggregate). -/
def aggregateTasks (allTasks : List RawRecord) : List TaskAggregate :=
  (allTasks.foldl addRecord []).map (fun g =>
    { id := g.id, name := g.name, teamName := g.teamName, tasks := g.tasks,
      executionCount := (g.executionCount : Int), targetCount := (g.targetCount : Int),
      isCompleted := g.executionCount == g.targetCount && decide (0 < g.targetCount),
      hasConflict := false, conflictTimestamp := none })

/-- First-seen order of the template keys of a record list: the order in
which `aggregateTasks`' grouped object acquires its keys. -/
def firstSeenKeys (l : List String) : List String :=
  l.foldl (fun acc k => if k ∈ acc then acc else acc ++ [k]) []

/-! ## Compensation and reconciliation (sync-queue.js) -/

/-- `revertOptimisticUpdate`'s `revertedCount` local: decrement the count
(floored at 0) after a failed increment, increment it (capped at
`targetCount`) otherwise. -/
def revertedCountOf (taskGroup : TaskAggregate) (u : ActionEntry) : Int :=
  if u.action == "increment" then max (taskGroup.executionCount - 1) 0
  else min (taskGroup.executionCount + 1) taskGroup.targetCount

/-- `revertOptimisticUpdate`'s `revertedSubTasks` local: after a failed
increment, flip the most recently finished `DONE` record (by `finished_at`
falling back to `created_at`) back to `PENDING`; otherwise flip the most
recently created `PENDING` record to `DONE`, stamping it with the current
time; when no eligible record exists the list is left unchanged. -/
def revertedSubTasksOf (taskGroup : TaskAggregate) (u : ActionEntry) (now : Nat) :
    List RawRecord :=
  if u.action == "increment" then
    match selectFirstMaxBy dateKeyDone
        (taskGroup.tasks.filter (fun r => r.status == "DONE")) with
    | some taskToRevert =>
      taskGroup.tasks.map (fun subTask =>
        if subTask.id == taskToRevert.id then
          { subTask with status := "PENDING", finished_at := none }
        else subTask)
    | none => taskGroup.tasks
  else
    match selectFirstMaxBy (fun r => r.created_at)
        (taskGroup.tasks.filter (fun r => r.status == "PENDING")) with
    | some taskToRevert =>
      taskGroup.tasks.map (fun subTask =>
        if subTask.id == taskToRevert.id then
          { subTask with status := "DONE", finished_at := some now }
        else subTask)
    | none => taskGroup.tasks

/-- The per-aggregate update of `revertOptimisticUpdate`'s final
`state.tasks.map`: the aggregate matching the failed entry's `taskId` gets
the reverted sub-tasks and count, recomputed `isCompleted`, and a cleared
conflict flag; every other aggregate is untouched. -/
def revertUpdateGroup (u : ActionEntry) (now : Nat) (taskGroup t : TaskAggregate) :
    TaskAggregate :=
  if t.id == u.taskId then
    { t with tasks := revertedSubTasksOf taskGroup u now,
             executionCount := revertedCountOf taskGroup u,
             isCompleted := revertedCountOf taskGroup u == t.targetCount &&
               decide ((0 : Int) < t.targetCount),
             hasConflict := false }
  else t

/-- `revertOptimisticUpdate(update)`: best-effort local compensation after a
dropped entry.  Returns the new task list together with whether `setState`
(and hence subscriber notification) happened; `if (!taskGroup) return;`
makes the function a complete no-op when the aggregate is absent. -/
def revertOptimisticUpdate (tasks : List TaskAggregate) (u : ActionEntry) (now : Nat) :
    List TaskAggregate × Bool :=
  match tasks.find? (fun t => t.id == u.taskId) with
  | none => (tasks, false)
  | some taskGroup => (tasks.map (revertUpdateGroup u now taskGroup), true)

/-- `detectConflicts(localTasks, backendTasks)`: backend aggregates win; one
is marked conflicted when a local aggregate with the same id has a different
`executionCount`. -/
def detectConflicts (localTasks backendTasks : List TaskAggregate) (now : Nat) :
    List TaskAggregate :=
  backendTasks.map (fun backendTask =>
    match localTasks.find? (fun t => t.id == backendTask.id) with
    | some localTask =>
      if localTask.executionCount != backendTask.executionCount then
        { backendTask with hasConflict := true, conflictTimestamp := some now }
      else backendTask
    | none => backendTask)

/-! ## Mutation queue state and its transitions (sync-queue.js) -/

/-- The queue-owning part of the `SyncQueue` singleton. -/
structure QState where
  queue : List QueueEntry
  hasRefreshQueued : Bool
deriving Repr, DecidableEq

/-- `queueRefresh()`: push a trailing refresh request unless one is flagged. -/
def queueRefreshFn (s : QState) (ts : Nat) : QState :=
  if s.hasRefreshQueued then s
  else { queue := s.queue ++ [.refresh ts], hasRefreshQueued := true }

/-- `enqueue(update)`: drop any queued refresh, append the new action entry,
then queue a fresh trailing refresh. -/
def enqueueFn (s : QState) (e : ActionEntry) (ts : Nat) : QState :=
  let filtered := s.queue.filter (fun item => !isRefreshEntry item)
  queueRefreshFn { queue := filtered ++ [.action e], hasRefreshQueued := false } ts

/-- One observable transition of the queue: an `enqueue` call, or one
iteration of the `processQueue` drain loop (popping a refresh, popping an
action on success / skip / retry-exhaustion, reinserting a retried action
before the refresh, or clearing everything on `SESSION_EXPIRED`). -/
inductive SyncStep : QState → QState → Prop
  | enqueue (s : QState) (e : ActionEntry) (ts : Nat) :
      SyncStep s (enqueueFn s e ts)
  | popRefresh (s : QState) (ts : Nat) (rest : List QueueEntry)
      (h : s.queue = .refresh ts :: rest) :
      SyncStep s { queue := rest, hasRefreshQueued := false }
  | popAction (s : QState) (a : ActionEntry) (rest : List QueueEntry)
      (h : s.queue = .action a :: rest) :
      SyncStep s { queue := rest, hasRefreshQueued := s.hasRefreshQueued }
  | retryAction (s : QState) (a : ActionEntry) (rest : List QueueEntry)
      (h : s.queue = .action a :: rest)
      (hr : a.retryCount + 1 < a.maxRetries) :
      SyncStep s { queue := insertBeforeRefresh rest (.action (bumpRetry a)),
                   hasRefreshQueued := s.hasRefreshQueued }
  | clear (s : QState) :
      SyncStep s { queue := [], hasRefreshQueued := false }

/-- Queue states reachable from the initial empty queue by enqueues and
drain-loop iterations. -/
def QReachable (s : QState) : Prop :=
  Relation.ReflTransGen SyncStep { queue := [], hasRefreshQueued := false } s

/-! ## The drain loop (sync-queue.js, `processQueue`)

`processQueue` drains the queue sequentially.  Backend calls are answered by
an oracle indexed by the number of calls made so far; `getTasks` (the
refresh fetch, which the client aggregates before storing) and
`updateTaskStatus` (the action dispatch) are each one oracle call, and an
HTTP 401 response is the `SESSION_EXPIRED` signal. -/

/-- Result of one backend call: a successful response (for the refresh fetch,
the aggregated task list), or an HTTP error which is either a 401
(`SESSION_EXPIRED`) or any other failure. -/
inductive CallResult where
  | ok (tasks : List TaskAggregate)
  | httpError (unauthorized : Bool)
deriving Repr, DecidableEq

/-- The state read and written by the drain loop: the queue with its refresh
flag, plus the slice of the `StateManager` state it touches. -/
structure LoopState where
  queue : List QueueEntry
  hasRefreshQueued : Bool
  tasks : List TaskAggregate
  pendingChanges : List QueueEntry
  error : Option String
deriving Repr, DecidableEq

/-- Instrumented outcome of a `processQueue` run: the final state, the
`isProcessing` flag on exit, the `await`-ed backoff delays in order, the
revert invocations, the error messages written, whether `SESSION_EXPIRED`
was rethrown, the next unused backend-call index, and whether the run was
cut off by exhausted fuel. -/
structure RunResult where
  final : LoopState
  isProcessing : Bool
  delays : List Nat
  reverts : List ActionEntry
  errorMsgs : List String
  raised : Bool
  nextCall : Nat
  fuelOut : Bool
deriving Repr, DecidableEq

/-- Outcome of dispatching one action entry. -/
inductive ActionOutcome where
  | success
  | failTransient
  | failSession
deriving Repr, DecidableEq

/-- Dispatch of an action entry with original task `task`:
`markOldestPendingAsDone` / `reopenNewestDoneTask` throw their
`'No pending tasks to complete'` / `'No done tasks to reopen'` errors before
any backend call when no eligible record exists; otherwise one backend call
(`updateTaskStatus`) is made; an unrecognized action string makes no call and
falls through to the success path.  Returns whether a backend call was
consumed, and the outcome. -/
def dispatchAction (oracle : Nat → CallResult) (i : Nat) (a : ActionEntry)
    (task : TaskAggregate) : Bool × ActionOutcome :=
  if a.action == "increment" then
    if (task.tasks.filter (fun r => r.status == "PENDING")).isEmpty then
      (false, .failTransient)
    else match oracle i with
      | .ok _ => (true, .success)
      | .httpError true => (true, .failSession)
      | .httpError false => (true, .failTransient)
  else if a.action == "decrement" then
    if (task.tasks.filter (fun r => r.status == "DONE")).isEmpty then
      (false, .failTransient)
    else match oracle i with
      | .ok _ => (true, .success)
      | .httpError true => (true, .failSession)
      | .httpError false => (true, .failTransient)
  else (false, .success)

/-- The `SESSION_EXPIRED` exit: `clearQueue()` (empty queue, refresh flag
reset, `pendingChanges` published empty), `isProcessing = false`, rethrow. -/
def sessionExit (s : LoopState) (i : Nat) : RunResult :=
  { final := { queue := [], hasRefreshQueued := false, tasks := s.tasks,
               pendingChanges := [], error := s.error },
    isProcessing := false, delays := [], reverts := [], errorMsgs := [],
    raised := true, nextCall := i, fuelOut := false }

/-- The `while (queue.length > 0)` loop of `processQueue`, with fuel for
structural recursion (the loop itself always terminates: every iteration
strictly shrinks the total retry budget of the queue). -/
def runLoop (oracle : Nat → CallResult) (now : Nat) :
    Nat → LoopState → Nat → RunResult
  | fuel, s, i =>
    match s.queue with
    | [] =>
      { final := s, isProcessing := false, delays := [], reverts := [],
        errorMsgs := [], raised := false, nextCall := i, fuelOut := false }
    | u :: rest =>
      match fuel with
      | 0 =>
        { final := s, isProcessing := true, delays := [], reverts := [],
          errorMsgs := [], raised := false, nextCall := i, fuelOut := true }
      | fuel + 1 =>
        match u with
        | .refresh _ =>
          -- shift, clear the refresh flag, wait 500ms, then fetch
          let s1 : LoopState := { s with queue := rest, hasRefreshQueued := false }
          match oracle i with
          | .ok tasks =>
            runLoop oracle now fuel
              { s1 with tasks := tasks, error := none,
                        pendingChanges := rest.filter isActionEntry } (i + 1)
          | .httpError true => sessionExit s1 (i + 1)
          | .httpError false =>
            -- 'Continue processing even if refresh fails'
            runLoop oracle now fuel s1 (i + 1)
        | .action a =>
          match a.originalTask with
          | none =>
            -- 'No original task in queue update': shift and continue
            runLoop oracle now fuel { s with queue := rest } i
          | some task =>
            match dispatchAction oracle i a task with
            | (consumed, out) =>
              let j := if consumed then i + 1 else i
              match out with
              | .success =>
                runLoop oracle now fuel
                  { s with queue := rest,
                           pendingChanges := rest.filter isActionEntry } j
              | .failSession => sessionExit s j
              | .failTransient =>
                let a' := bumpRetry a
                if a'.retryCount < a.maxRetries then
                  let q' := insertBeforeRefresh rest (.action a')
                  let d := min (1000 * 2 ^ (a'.retryCount - 1)) 10000
                  let r := runLoop oracle now fuel
                    { s with queue := q',
                             pendingChanges := q'.filter isActionEntry } j
                  { r with delays := d :: r.delays }
                else
                  let tasks' := (revertOptimisticUpdate s.tasks a' now).1
                  let msg := "Failed to " ++
                    (if a.action == "increment" then "complete" else "reopen") ++
                    " task after " ++ toString a.maxRetries ++
                    " attempts. Please try again."
                  let r := runLoop oracle now fuel
                    { queue := rest, hasRefreshQueued := s.hasRefreshQueued,
                      tasks := tasks', pendingChanges := rest.filter isActionEntry,
                      error := some msg } j
                  { r with reverts := a' :: r.reverts, errorMsgs := msg :: r.errorMsgs }

/-- `processQueue()`: no-op when a drain is already running, otherwise run
the loop with the `isProcessing` flag held. -/
def processQueue (oracle : Nat → CallResult) (now : Nat) (fuel : Nat)
    (isProcessing : Bool) (s : LoopState) : RunResult :=
  if isProcessing then
    { final := s, isProcessing := true, delays := [], reverts := [],
      errorMsgs := [], raised := false, nextCall := 0, fuelOut := false }
  else runLoop oracle now fuel s 0

/-! ## Periodic reconciliation (sync-queue.js, `syncWithBackend`) -/

/-- Observable outcome of one `syncWithBackend` tick. -/
structure SyncOutcome where
  returned : Option (List TaskAggregate)
  tasks : List TaskAggregate
  error : Option String
  backendCalled : Bool
  raised : Bool
deriving Repr, DecidableEq

/-- `syncWithBackend()`: skipped entirely while the queue is non-empty or a
drain is in progress; otherwise fetch, reconcile via `detectConflicts`, and
replace the task list (`SESSION_EXPIRED` rethrows, other fetch errors are
swallowed leaving state unchanged). -/
def syncWithBackend (queue : List QueueEntry) (isProcessing : Bool)
    (tasks : List TaskAggregate) (error : Option String)
    (fetchResult : CallResult) (now : Nat) : SyncOutcome :=
  if 0 < queue.length ∨ isProcessing = true then
    { returned := none, tasks := tasks, error := error,
      backendCalled := false, raised := false }
  else
    match fetchResult with
    | .ok backendTasks =>
      let tasksWithConflicts := detectConflicts tasks backendTasks now
      { returned := some tasksWithConflicts, tasks := tasksWithConflicts,
        error := none, backendCalled := true, raised := false }
    | .httpError true =>
      { returned := none, tasks := tasks, error := error,
        backendCalled := true, raised := true }
    | .httpError false =>
      { returned := none, tasks := tasks, error := error,
        backendCalled := true, raised := false }

/-! ## Visibility window (documented week filter of `getTasks`) -/

/-- Modelled from the spec: the current-week visibility filter applied when
building the fetched task list.  The filtering code itself is only
documented in this repository (its sources here stop at the unfiltered
`getTasks`), so the predicate follows the spec's words: a raw record is
included if its status is `PENDING` (always), or else if its `finished_at`
(falling back to `updated_at`) falls within the current Monday-Sunday week,
abstracted here by the week's bounds `weekStart ≤ t ≤ weekEnd`. -/
def visibleInCurrentWeek (weekStart weekEnd : Nat) (r : RawRecord) : Bool :=
  r.status == "PENDING" ||
    (decide (weekStart ≤ r.finished_at.getD r.updated_at) &&
     decide (r.finished_at.getD r.updated_at ≤ weekEnd))

/-- Modelled from the spec: the record list produced by the fetch after the
visibility window is applied to the combined raw records. -/
def getTasksVisibleRecords (weekStart weekEnd : Nat) (fetched : List RawRecord) :
    List RawRecord :=
  fetched.filter (visibleInCurrentWeek weekStart weekEnd)

/-! ## Sample data (used by witnesses and counterexamples) -/

/-- A pending raw record of template `T1`. -/
def samplePending : RawRecord :=
  { id := "r1", action_template_id := some "T1", action_title := some "Walk",
    team_name := none, status := "PENDING", created_at := 10,
    finished_at := none, updated_at := 10 }

/-- A done raw record of template `T1`. -/
def sampleDone : RawRecord :=
  { id := "r2", action_template_id := some "T1", action_title := some "Walk",
    team_name := none, status := "DONE", created_at := 5,
    finished_at := some 20, updated_at := 20 }

/-- A `T1` aggregate holding one pending and one done unit. -/
def sampleAgg : TaskAggregate :=
  { id := "T1", name := "Walk", teamName := none, tasks := [samplePending, sampleDone],
    executionCount := 1, targetCount := 2, isCompleted := false,
    hasConflict := false, conflictTimestamp := none }

/-- A `T1` aggregate with no pending unit (every unit done). -/
def sampleAggAllDone : TaskAggregate :=
  { id := "T1", name := "Walk", teamName := none, tasks := [sampleDone],
    executionCount := 1, targetCount := 1, isCompleted := true,
    hasConflict := false, conflictTimestamp := none }

/-- An increment intent for `T1` carrying `sampleAgg` as original snapshot. -/
def sampleEntry : ActionEntry :=
  { taskId := "T1", action := "increment", originalTask := some sampleAgg,
    timestamp := 0, retryCount := 0, maxRetries := 5 }

/-- An increment intent whose original snapshot has no pending unit. -/
def sampleEntryNoPending : ActionEntry :=
  { taskId := "T1", action := "increment", originalTask := some sampleAggAllDone,
    timestamp := 0, retryCount := 0, maxRetries := 5 }

/-- A locally held `T1` aggregate with `executionCount = 3`. -/
def sampleLocalT1 : TaskAggregate :=
  { id := "T1", name := "Walk", teamName := none, tasks := [],
    executionCount := 3, targetCount := 7, isCompleted := false,
    hasConflict := false, conflictTimestamp := none }

/-- A backend `T1` aggregate with `executionCount = 5`. -/
def sampleBackendT1 : TaskAggregate :=
  { id := "T1", name := "Walk", teamName := none, tasks := [],
    executionCount := 5, targetCount := 7, isCompleted := false,
    hasConflict := false, conflictTimestamp := none }

/-! ## C1: at most one refresh entry, always at the tail -/

/-- Every entry other than possibly the last one is an action entry. -/
def refreshOnlyAtTail : List QueueEntry → Prop
  | [] => True
  | [_] => True
  | e :: rest => isRefreshEntry e = false ∧ refreshOnlyAtTail rest

/-- The session-expiry contract of a drain run that starts at backend-call
index `i`: the call index never decreases, a rethrown `SESSION_EXPIRED`
leaves the queue and pending changes empty with the `isProcessing` flag
cleared, and a rethrow happens exactly when one of the consumed backend
calls answered 401. -/
def SessionSpec (oracle : Nat → CallResult) (r : RunResult) (i : Nat) : Prop :=
  i ≤ r.nextCall ∧
  (r.raised = true →
    r.final.queue = [] ∧ r.final.pendingChanges = [] ∧
    r.final.hasRefreshQueued = false ∧ r.isProcessing = false) ∧
  (r.raised = true ↔ ∃ j, i ≤ j ∧ j < r.nextCall ∧ oracle j = .httpError true)

lemma refreshOnlyAtTail_tail {x : QueueEntry} {rest : List QueueEntry}
    (h : refreshOnlyAtTail (x :: rest)) : refreshOnlyAtTail rest := by
  match rest with
  | [] => trivial
  | y :: ys => exact h.2

lemma refreshOnlyAtTail_cons {x : QueueEntry} {rest : List QueueEntry}
    (hx : isRefreshEntry x = false) (h : refreshOnlyAtTail rest) :
    refreshOnlyAtTail (x :: rest) := by
  match rest with
  | [] => trivial
  | y :: ys => exact ⟨hx, h⟩

lemma refreshOnlyAtTail_append {l t : List QueueEntry}
    (hl : ∀ x ∈ l, isRefreshEntry x = false) (ht : refreshOnlyAtTail t) :
    refreshOnlyAtTail (l ++ t) := by
  induction l with
  | nil => simpa using ht
  | cons x xs ih =>
    exact refreshOnlyAtTail_cons (hl x (by simp))
      (ih (fun y hy => hl y (by simp [hy])))

lemma refreshOnlyAtTail_insert {q : List QueueEntry} {e : QueueEntry}
    (hq : refreshOnlyAtTail q) (he : isRefreshEntry e = false) :
    refreshOnlyAtTail (insertBeforeRefresh q e) := by
  induction q with
  | nil => trivial
  | cons y ys ih =>
    by_cases hy : isRefreshEntry y = true
    · rw [insertBeforeRefresh, if_pos hy]
      exact refreshOnlyAtTail_cons he hq
    · rw [insertBeforeRefresh, if_neg hy]
      exact refreshOnlyAtTail_cons (by simpa using hy) (ih (refreshOnlyAtTail_tail hq))

lemma refreshOnlyAtTail_enqueue (s : QState) (e : ActionEntry) (ts : Nat) :
    refreshOnlyAtTail (enqueueFn s e ts).queue := by
  have hq : (enqueueFn s e ts).queue =
      s.queue.filter (fun item => !isRefreshEntry item) ++
        ([.action e] ++ [.refresh ts]) := by
    simp [enqueueFn, queueRefreshFn]
  rw [hq]
  refine refreshOnlyAtTail_append (fun x hx => by simpa using List.of_mem_filter hx) ?_
  exact refreshOnlyAtTail_cons (by simp [isRefreshEntry]) trivial

lemma reachable_refreshOnlyAtTail (s : QState) (h : QReachable s) :
    refreshOnlyAtTail s.queue := by
  induction h with
  | refl => trivial
  | tail _ hstep ih =>
    cases hstep with
    | enqueue e ts => exact refreshOnlyAtTail_enqueue _ e ts
    | popRefresh ts rest hq => exact refreshOnlyAtTail_tail (hq ▸ ih)
    | popAction a rest hq => exact refreshOnlyAtTail_tail (hq ▸ ih)
    | retryAction a rest hq hr =>
      exact refreshOnlyAtTail_insert (refreshOnlyAtTail_tail (hq ▸ ih)) rfl
    | clear => trivial

lemma countP_refresh_le_one {q : List QueueEntry} (h : refreshOnlyAtTail q) :
    q.countP isRefreshEntry ≤ 1 := by
  induction q with
  | nil => simp
  | cons x xs ih =>
    match xs, h with
    | [], _ => by_cases hx : isRefreshEntry x = true <;> simp [List.countP_cons, hx]
    | y :: ys, ⟨hx, hrest⟩ =>
      have := ih hrest
      rw [List.countP_cons]
      simp [hx]
      omega

lemma refresh_pos_of_inv {q : List QueueEntry} (h : refreshOnlyAtTail q) :
    ∀ i : Nat, (hi : i < q.length) →
      isRefreshEntry (q.get ⟨i, hi⟩) = true → i = q.length - 1 := by
  induction q with
  | nil => intro i hi; simp at hi
  | cons x rest ih =>
    intro i hi hr
    match rest, i, h with
    | [], 0, _ => rfl
    | [], i + 1, _ => simp at hi
    | y :: ys, 0, ⟨hx, _⟩ => rw [List.get] at hr; rw [hx] at hr; cases hr
    | y :: ys, i + 1, ⟨hx, hrest⟩ =>
      have hi' : i < (y :: ys).length := by simpa using hi
      have := ih hrest i hi' (by rw [List.get] at hr; exact hr)
      simp at this ⊢
      omega

/-- C1: starting from the empty queue, after any sequence of `enqueue` calls
and `processQueue` loop iterations (including retry reinsertion of a failed
entry and session-expiry clearing), the queue holds at most one refresh
entry, and any refresh entry is the last element of the queue. -/
theorem queue_refresh_at_most_one_and_last (s : QState) (h : QReachable s) :
    s.queue.countP isRefreshEntry ≤ 1 ∧
    ∀ i : Nat, (hi : i < s.queue.length) →
      isRefreshEntry (s.queue.get ⟨i, hi⟩) = true → i = s.queue.length - 1 := by
  have hinv := reachable_refreshOnlyAtTail s h
  exact ⟨countP_refresh_le_one hinv, refresh_pos_of_inv hinv⟩

/-- Witness for C1: the state after one `enqueue` on the empty queue is
reachable and satisfies the refresh bound. -/
theorem queue_refresh_at_most_one_and_last_witness :
    (enqueueFn { queue := [], hasRefreshQueued := false } sampleEntry 3).queue.countP
      isRefreshEntry ≤ 1 :=
  (queue_refresh_at_most_one_and_last _
    (Relation.ReflTransGen.single (SyncStep.enqueue _ sampleEntry 3))).1

/-! ## Branch equations of the drain loop -/

lemma runLoop_nil {oracle : Nat → CallResult} {now fuel : Nat} {s : LoopState} {i : Nat}
    (hq : s.queue = []) :
    runLoop oracle now fuel s i =
      { final := s, isProcessing := false, delays := [], reverts := [],
        errorMsgs := [], raised := false, nextCall := i, fuelOut := false } := by
  rw [runLoop, hq]

lemma runLoop_fuelZero {oracle : Nat → CallResult} {now : Nat} {s : LoopState} {i : Nat}
    {u : QueueEntry} {rest : List QueueEntry} (hq : s.queue = u :: rest) :
    runLoop oracle now 0 s i =
      { final := s, isProcessing := true, delays := [], reverts := [],
        errorMsgs := [], raised := false, nextCall := i, fuelOut := true } := by
  rw [runLoop, hq]

lemma runLoop_refresh_ok {oracle : Nat → CallResult} {now fuel : Nat} {s : LoopState}
    {i ts : Nat} {rest : List QueueEntry} {tasks : List TaskAggregate}
    (hq : s.queue = .refresh ts :: rest) (ho : oracle i = .ok tasks) :
    runLoop oracle now (fuel + 1) s i =
      runLoop oracle now fuel
        { queue := rest, hasRefreshQueued := false, tasks := tasks,
          pendingChanges := rest.filter isActionEntry, error := none } (i + 1) := by
  rw [runLoop, hq]; simp only [ho]

lemma runLoop_refresh_session {oracle : Nat → CallResult} {now fuel : Nat} {s : LoopState}
    {i ts : Nat} {rest : List QueueEntry}
    (hq : s.queue = .refresh ts :: rest) (ho : oracle i = .httpError true) :
    runLoop oracle now (fuel + 1) s i =
      sessionExit { s with queue := rest, hasRefreshQueued := false } (i + 1) := by
  rw [runLoop, hq]; simp only [ho]

lemma runLoop_refresh_fail {oracle : Nat → CallResult} {now fuel : Nat} {s : LoopState}
    {i ts : Nat} {rest : List QueueEntry}
    (hq : s.queue = .refresh ts :: rest) (ho : oracle i = .httpError false) :
    runLoop oracle now (fuel + 1) s i =
      runLoop oracle now fuel { s with queue := rest, hasRefreshQueued := false } (i + 1) := by
  rw [runLoop, hq]; simp only [ho]

lemma runLoop_action_skip {oracle : Nat → CallResult} {now fuel : Nat} {s : LoopState}
    {i : Nat} {a : ActionEntry} {rest : List QueueEntry}
    (hq : s.queue = .action a :: rest) (ht : a.originalTask = none) :
    runLoop oracle now (fuel + 1) s i =
      runLoop oracle now fuel { s with queue := rest } i := by
  rw [runLoop, hq]; simp only [ht]

lemma runLoop_action_success {oracle : Nat → CallResult} {now fuel : Nat} {s : LoopState}
    {i : Nat} {a : ActionEntry} {task : TaskAggregate} {rest : List QueueEntry} {c : Bool}
    (hq : s.queue = .action a :: rest) (ht : a.originalTask = some task)
    (hd : dispatchAction oracle i a task = (c, .success)) :
    runLoop oracle now (fuel + 1) s i =
      runLoop oracle now fuel
        { s with queue := rest, pendingChanges := rest.filter isActionEntry }
        (if c then i + 1 else i) := by
  rw [runLoop, hq]; simp only [ht, hd]

lemma runLoop_action_session {oracle : Nat → CallResult} {now fuel : Nat} {s : LoopState}
    {i : Nat} {a : ActionEntry} {task : TaskAggregate} {rest : List QueueEntry} {c : Bool}
    (hq : s.queue = .action a :: rest) (ht : a.originalTask = some task)
    (hd : dispatchAction oracle i a task = (c, .failSession)) :
    runLoop oracle now (fuel + 1) s i = sessionExit s (if c then i + 1 else i) := by
  rw [runLoop, hq]; simp only [ht, hd]

lemma runLoop_action_retry {oracle : Nat → CallResult} {now fuel : Nat} {s : LoopState}
    {i : Nat} {a : ActionEntry} {task : TaskAggregate} {rest : List QueueEntry} {c : Bool}
    (hq : s.queue = .action a :: rest) (ht : a.originalTask = some task)
    (hd : dispatchAction oracle i a task = (c, .failTransient))
    (hr : a.retryCount + 1 < a.maxRetries) :
    runLoop oracle now (fuel + 1) s i =
      (let q' := insertBeforeRefresh rest (.action (bumpRetry a))
       let r := runLoop oracle now fuel
         { s with queue := q', pendingChanges := q'.filter isActionEntry }
         (if c then i + 1 else i)
       { r with delays := min (1000 * 2 ^ ((bumpRetry a).retryCount - 1)) 10000 :: r.delays }) := by
  rw [runLoop, hq]
  simp only [ht, hd]
  rw [if_pos (by simpa [bumpRetry] using hr)]

lemma runLoop_action_drop {oracle : Nat → CallResult} {now fuel : Nat} {s : LoopState}
    {i : Nat} {a : ActionEntry} {task : TaskAggregate} {rest : List QueueEntry} {c : Bool}
    (hq : s.queue = .action a :: rest) (ht : a.originalTask = some task)
    (hd : dispatchAction oracle i a task = (c, .failTransient))
    (hr : ¬ a.retryCount + 1 < a.maxRetries) :
    runLoop oracle now (fuel + 1) s i =
      (let msg := "Failed to " ++
         (if a.action == "increment" then "complete" else "reopen") ++
         " task after " ++ toString a.maxRetries ++ " attempts. Please try again."
       let r := runLoop oracle now fuel
         { queue := rest, hasRefreshQueued := s.hasRefreshQueued,
           tasks := (revertOptimisticUpdate s.tasks (bumpRetry a) now).1,
           pendingChanges := rest.filter isActionEntry, error := some msg }
         (if c then i + 1 else i)
       { r with reverts := bumpRetry a :: r.reverts, errorMsgs := msg :: r.errorMsgs }) := by
  rw [runLoop, hq]
  simp only [ht, hd]
  rw [if_neg (by simpa [bumpRetry] using hr)]

/-- A dispatch reports `SESSION_EXPIRED` exactly when it consumed a backend
call and that call answered 401. -/
lemma dispatchAction_session_iff {oracle : Nat → CallResult} {i : Nat} {a : ActionEntry}
    {task : TaskAggregate} {c : Bool} {out : ActionOutcome}
    (h : dispatchAction oracle i a task = (c, out)) :
    out = .failSession ↔ (c = true ∧ oracle i = .httpError true) := by
  unfold dispatchAction at h
  split_ifs at h with h1 h2 h3 h4
  · simp at h; simp [← h.1, ← h.2]
  · rcases ho : oracle i with tasks | u
    · rw [ho] at h; simp at h; simp [← h.1, ← h.2]
    · cases u <;> rw [ho] at h <;> simp at h <;> simp [← h.1, ← h.2, ho]
  · simp at h; simp [← h.1, ← h.2]
  · rcases ho : oracle i with tasks | u
    · rw [ho] at h; simp at h; simp [← h.1, ← h.2]
    · cases u <;> rw [ho] at h <;> simp at h <;> simp [← h.1, ← h.2, ho]
  · simp at h; simp [← h.1, ← h.2]

/-! ## C3: session expiry clears everything; nothing else propagates -/

lemma sessionSpec_of_not_raised {oracle : Nat → CallResult} {r : RunResult} {i : Nat}
    (hr : r.raised = false) (hn : r.nextCall = i) : SessionSpec oracle r i := by
  refine ⟨by omega, by simp [hr], ?_⟩
  rw [hr, hn]
  constructor
  · intro h; cases h
  · rintro ⟨j, hj1, hj2, _⟩; omega

lemma sessionSpec_step {oracle : Nat → CallResult} {r : RunResult} {i j : Nat}
    (h : SessionSpec oracle r j) (hij : i ≤ j)
    (hskip : ∀ k, i ≤ k → k < j → ¬ oracle k = .httpError true) :
    SessionSpec oracle r i := by
  obtain ⟨h1, h2, h3⟩ := h
  refine ⟨by omega, h2, ?_⟩
  rw [h3]
  constructor
  · rintro ⟨k, hk1, hk2, hk3⟩; exact ⟨k, by omega, hk2, hk3⟩
  · rintro ⟨k, hk1, hk2, hk3⟩
    refine ⟨k, ?_, hk2, hk3⟩
    by_contra hlt
    exact hskip k hk1 (by omega) hk3

lemma sessionSpec_sessionExit {oracle : Nat → CallResult} {s : LoopState} {i : Nat}
    (h401 : oracle i = .httpError true) :
    SessionSpec oracle (sessionExit s (i + 1)) i := by
  refine ⟨by simp [sessionExit], by simp [sessionExit], ?_⟩
  simp only [sessionExit, true_iff]
  exact ⟨i, le_refl i, by omega, h401⟩

lemma sessionSpec_consume {oracle : Nat → CallResult} {r : RunResult} {i : Nat} {c : Bool}
    (hno : ¬(c = true ∧ oracle i = .httpError true))
    (h : SessionSpec oracle r (if c then i + 1 else i)) : SessionSpec oracle r i := by
  cases c
  · simpa using h
  · simp only [if_true] at h
    refine sessionSpec_step h (by omega) ?_
    intro k hk1 hk2 h401
    have hk : k = i := by omega
    exact hno ⟨rfl, hk ▸ h401⟩

lemma runLoop_sessionSpec (oracle : Nat → CallResult) (now : Nat) :
    ∀ (fuel : Nat) (s : LoopState) (i : Nat),
      SessionSpec oracle (runLoop oracle now fuel s i) i := by
  intro fuel
  induction fuel with
  | zero =>
    intro s i
    rcases hq : s.queue with _ | ⟨u, rest⟩
    · rw [runLoop_nil hq]; exact sessionSpec_of_not_raised rfl rfl
    · rw [runLoop_fuelZero hq]; exact sessionSpec_of_not_raised rfl rfl
  | succ fuel ih =>
    intro s i
    rcases hq : s.queue with _ | ⟨u, rest⟩
    · rw [runLoop_nil hq]; exact sessionSpec_of_not_raised rfl rfl
    · cases u with
      | refresh ts =>
        rcases ho : oracle i with tasks | u401
        · rw [runLoop_refresh_ok hq ho]
          refine sessionSpec_step (ih _ (i + 1)) (by omega) ?_
          intro k hk1 hk2 h401
          have hk : k = i := by omega
          rw [hk, ho] at h401; cases h401
        · cases u401
          · rw [runLoop_refresh_fail hq ho]
            refine sessionSpec_step (ih _ (i + 1)) (by omega) ?_
            intro k hk1 hk2 h401
            have hk : k = i := by omega
            rw [hk, ho] at h401; cases h401
          · rw [runLoop_refresh_session hq ho]
            exact sessionSpec_sessionExit ho
      | action a =>
        rcases ht : a.originalTask with _ | task
        · rw [runLoop_action_skip hq ht]
          exact sessionSpec_step (ih _ i) (le_refl i) (by intro k h1 h2; omega)
        · rcases hd : dispatchAction oracle i a task with ⟨c, out⟩
          have hiff := dispatchAction_session_iff hd
          cases out with
          | success =>
            rw [runLoop_action_success hq ht hd]
            refine sessionSpec_consume ?_ (ih _ _)
            intro hch
            have := hiff.2 hch; cases this
          | failSession =>
            obtain ⟨hc, h401⟩ := hiff.1 rfl
            rw [runLoop_action_session hq ht hd, hc, if_pos rfl]
            exact sessionSpec_sessionExit h401
          | failTransient =>
            have hno : ¬(c = true ∧ oracle i = .httpError true) := by
              intro hch
              have := hiff.2 hch; cases this
            by_cases hr : a.retryCount + 1 < a.maxRetries
            · rw [runLoop_action_retry hq ht hd hr]
              exact sessionSpec_consume hno (ih _ _)
            · rw [runLoop_action_drop hq ht hd hr]
              exact sessionSpec_consume hno (ih _ _)

/-- C3: whatever the queue contents, if the drain raises (rethrows) then it
raised the `SESSION_EXPIRED` signal after clearing the queue and the pending
changes and dropping the `isProcessing` flag; and `processQueue` raises
exactly when one of the backend calls it made answered 401 — every other
failure is handled inside the loop. -/
theorem processQueue_session_expiry_policy (oracle : Nat → CallResult)
    (now fuel : Nat) (isProcessing : Bool) (s : LoopState) :
    ((processQueue oracle now fuel isProcessing s).raised = true →
      (processQueue oracle now fuel isProcessing s).final.queue = [] ∧
      (processQueue oracle now fuel isProcessing s).final.pendingChanges = [] ∧
      (processQueue oracle now fuel isProcessing s).final.hasRefreshQueued = false ∧
      (processQueue oracle now fuel isProcessing s).isProcessing = false) ∧
    ((processQueue oracle now fuel isProcessing s).raised = true ↔
      ∃ j, j < (processQueue oracle now fuel isProcessing s).nextCall ∧
        oracle j = .httpError true) := by
  cases isProcessing
  · have h := runLoop_sessionSpec oracle now fuel s 0
    obtain ⟨h1, h2, h3⟩ := h
    unfold processQueue
    simp only [Bool.false_eq_true, if_false]
    refine ⟨h2, ?_⟩
    rw [h3]
    constructor
    · rintro ⟨j, _, hj2, hj3⟩; exact ⟨j, hj2, hj3⟩
    · rintro ⟨j, hj2, hj3⟩; exact ⟨j, by omega, hj2, hj3⟩
  · have hr : (processQueue oracle now fuel true s).raised = false := by
      simp [processQueue]
    have hn : (processQueue oracle now fuel true s).nextCall = 0 := by
      simp [processQueue]
    refine ⟨fun h => absurd h (by simp [hr]), ?_⟩
    constructor
    · intro h; exact absurd h (by simp [hr])
    · rintro ⟨j, hj, _⟩
      rw [hn] at hj
      omega

/-- Witness for C3: a 401 on the very first dispatch empties a one-entry
queue, clears the pending changes and the processing flag. -/
theorem processQueue_session_expiry_policy_witness :
    (processQueue (fun _ => CallResult.httpError true) 0 5 false
      { queue := [.action sampleEntry], hasRefreshQueued := false,
        tasks := [sampleAgg], pendingChanges := [.action sampleEntry],
        error := none }).final.queue = [] ∧
    (processQueue (fun _ => CallResult.httpError true) 0 5 false
      { queue := [.action sampleEntry], hasRefreshQueued := false,
        tasks := [sampleAgg], pendingChanges := [.action sampleEntry],
        error := none }).final.pendingChanges = [] ∧
    (processQueue (fun _ => CallResult.httpError true) 0 5 false
      { queue := [.action sampleEntry], hasRefreshQueued := false,
        tasks := [sampleAgg], pendingChanges := [.action sampleEntry],
        error := none }).final.hasRefreshQueued = false ∧
    (processQueue (fun _ => CallResult.httpError true) 0 5 false
      { queue := [.action sampleEntry], hasRefreshQueued := false,
        tasks := [sampleAgg], pendingChanges := [.action sampleEntry],
        error := none }).isProcessing = false :=
  (processQueue_session_expiry_policy (fun _ => CallResult.httpError true) 0 5 false
    { queue := [.action sampleEntry], hasRefreshQueued := false,
      tasks := [sampleAgg], pendingChanges := [.action sampleEntry],
      error := none }).1 (by decide)

/-! ## C2: backoff schedule and retry exhaustion -/

/-- C2 counterexample: an entry that fails five consecutive times is awaited
with backoff delays 1s, 2s, 4s and 8s only — there is no fifth retry and no
10s wait (the fifth failure removes the entry instead), contradicting the
claimed schedule `1s, 2s, 4s, 8s, 10s for n = 1..5`. -/
theorem retry_backoff_fifth_wait_counterexample :
    (processQueue (fun _ => CallResult.httpError false) 0 20 false
      { queue := [.action sampleEntry], hasRefreshQueued := false,
        tasks := [sampleAgg], pendingChanges := [.action sampleEntry],
        error := none }).delays = [1000, 2000, 4000, 8000] ∧
    (processQueue (fun _ => CallResult.httpError false) 0 20 false
      { queue := [.action sampleEntry], hasRefreshQueued := false,
        tasks := [sampleAgg], pendingChanges := [.action sampleEntry],
        error := none }).delays.length = 4 ∧
    ¬ (10000 ∈ (processQueue (fun _ => CallResult.httpError false) 0 20 false
      { queue := [.action sampleEntry], hasRefreshQueued := false,
        tasks := [sampleAgg], pendingChanges := [.action sampleEntry],
        error := none }).delays) ∧
    (processQueue (fun _ => CallResult.httpError false) 0 20 false
      { queue := [.action sampleEntry], hasRefreshQueued := false,
        tasks := [sampleAgg], pendingChanges := [.action sampleEntry],
        error := none }).final.queue = [] := by
  decide

/-- C2 (amended): a queued entry whose dispatch always fails with a
non-session error is retried with waits `min(1000·2^(n-1), 10000)` ms before
the n-th retry for `n = 1..4` (1s, 2s, 4s, 8s); the fifth consecutive
failure removes the entry without a further wait, triggers exactly one
revert and exactly one error message
`Failed to {complete|reopen} task after 5 attempts. Please try again.`,
drops the queue length by exactly one (1 to 0 here), and the loop continues
normally (nothing is rethrown and the processing flag is cleared). -/
theorem retry_exhaustion_backoff_and_single_drop (fuel now : Nat) (e : ActionEntry)
    (agg : TaskAggregate) (st : LoopState)
    (hq : st.queue = [.action e]) (ht : e.originalTask = some agg)
    (hrc : e.retryCount = 0) (hmr : e.maxRetries = 5)
    (hact : e.action = "increment" ∨ e.action = "decrement")
    (hel1 : e.action = "increment" →
      (agg.tasks.filter (fun r => r.status == "PENDING")).isEmpty = false)
    (hel2 : e.action = "decrement" →
      (agg.tasks.filter (fun r => r.status == "DONE")).isEmpty = false) :
    (processQueue (fun _ => CallResult.httpError false) now (fuel + 5) false st).delays =
      [1000, 2000, 4000, 8000] ∧
    (processQueue (fun _ => CallResult.httpError false) now (fuel + 5) false st).delays =
      (List.range 4).map (fun n => min (1000 * 2 ^ n) 10000) ∧
    (processQueue (fun _ => CallResult.httpError false) now (fuel + 5) false st).reverts =
      [{ e with retryCount := 5 }] ∧
    (processQueue (fun _ => CallResult.httpError false) now (fuel + 5) false st).errorMsgs =
      [if e.action = "increment" then
        "Failed to complete task after 5 attempts. Please try again."
       else "Failed to reopen task after 5 attempts. Please try again."] ∧
    (processQueue (fun _ => CallResult.httpError false) now (fuel + 5) false st).final.queue
      = [] ∧
    (processQueue (fun _ => CallResult.httpError false) now (fuel + 5) false st).final.tasks
      = (revertOptimisticUpdate st.tasks { e with retryCount := 5 } now).1 ∧
    (processQueue (fun _ => CallResult.httpError false) now (fuel + 5) false st).raised
      = false ∧
    (processQueue (fun _ => CallResult.httpError false) now (fuel + 5) false st).isProcessing
      = false ∧
    (processQueue (fun _ => CallResult.httpError false) now (fuel + 5) false st).fuelOut
      = false := by
  have hdisp : ∀ (i : Nat) (a : ActionEntry), a.action = e.action →
      dispatchAction (fun _ => CallResult.httpError false) i a agg =
        (true, .failTransient) := by
    intro i a ha
    rcases hact with h | h
    · unfold dispatchAction
      rw [ha, h]
      simp [hel1 h]
    · unfold dispatchAction
      rw [ha, h]
      simp [hel2 h]
  have h1 := @runLoop_action_retry (fun _ => CallResult.httpError false) now
      (fuel + 4) st 0 e agg [] true
      hq ht (hdisp 0 e rfl) (by omega)
  simp [bumpRetry, hrc, insertBeforeRefresh, isRefreshEntry, isActionEntry] at h1
  rw [show fuel + 4 = fuel + 3 + 1 from rfl] at h1
  have h2 := @runLoop_action_retry (fun _ => CallResult.httpError false) now
      (fuel + 3)
      ⟨[.action ⟨e.taskId, e.action, e.originalTask, e.timestamp, 1, e.maxRetries⟩],
       st.hasRefreshQueued, st.tasks,
       [.action ⟨e.taskId, e.action, e.originalTask, e.timestamp, 1, e.maxRetries⟩],
       st.error⟩
      1 ⟨e.taskId, e.action, e.originalTask, e.timestamp, 1, e.maxRetries⟩ agg [] true
      rfl ht (hdisp 1 _ rfl) (by simp [hmr])
  simp [bumpRetry, insertBeforeRefresh, isRefreshEntry, isActionEntry] at h2
  rw [h2] at h1
  simp at h1
  rw [show fuel + 3 = fuel + 2 + 1 from rfl] at h1
  have h3 := @runLoop_action_retry (fun _ => CallResult.httpError false) now
      (fuel + 2)
      ⟨[.action ⟨e.taskId, e.action, e.originalTask, e.timestamp, 2, e.maxRetries⟩],
       st.hasRefreshQueued, st.tasks,
       [.action ⟨e.taskId, e.action, e.originalTask, e.timestamp, 2, e.maxRetries⟩],
       st.error⟩
      2 ⟨e.taskId, e.action, e.originalTask, e.timestamp, 2, e.maxRetries⟩ agg [] true
      rfl ht (hdisp 2 _ rfl) (by simp [hmr])
  simp [bumpRetry, insertBeforeRefresh, isRefreshEntry, isActionEntry] at h3
  rw [h3] at h1
  simp at h1
  rw [show fuel + 2 = fuel + 1 + 1 from rfl] at h1
  have h4 := @runLoop_action_retry (fun _ => CallResult.httpError false) now
      (fuel + 1)
      ⟨[.action ⟨e.taskId, e.action, e.originalTask, e.timestamp, 3, e.maxRetries⟩],
       st.hasRefreshQueued, st.tasks,
       [.action ⟨e.taskId, e.action, e.originalTask, e.timestamp, 3, e.maxRetries⟩],
       st.error⟩
      3 ⟨e.taskId, e.action, e.originalTask, e.timestamp, 3, e.maxRetries⟩ agg [] true
      rfl ht (hdisp 3 _ rfl) (by simp [hmr])
  simp [bumpRetry, insertBeforeRefresh, isRefreshEntry, isActionEntry] at h4
  rw [h4] at h1
  simp at h1
  have h5 := @runLoop_action_drop (fun _ => CallResult.httpError false) now
      fuel
      ⟨[.action ⟨e.taskId, e.action, e.originalTask, e.timestamp, 4, e.maxRetries⟩],
       st.hasRefreshQueued, st.tasks,
       [.action ⟨e.taskId, e.action, e.originalTask, e.timestamp, 4, e.maxRetries⟩],
       st.error⟩
      4 ⟨e.taskId, e.action, e.originalTask, e.timestamp, 4, e.maxRetries⟩ agg [] true
      rfl ht (hdisp 4 _ rfl) (by simp [hmr])
  simp [bumpRetry, insertBeforeRefresh, isRefreshEntry, isActionEntry] at h5
  rw [h5] at h1
  simp [runLoop_nil] at h1
  simp only [processQueue, Bool.false_eq_true, if_false]
  rw [show fuel + 5 = fuel + 1 + 1 + 1 + 1 + 1 from rfl, h1]
  rcases hact with ha | ha <;>
    refine ⟨by simp, by simp; decide, by simp [hmr],
      by simp only [ha, hmr]; simp; decide,
      by simp, by simp [hmr], by simp, by simp, by simp⟩

/-- Witness for C2 (amended): the concrete run of a single failing increment
entry exhibits exactly the 1s, 2s, 4s, 8s waits. -/
theorem retry_exhaustion_backoff_and_single_drop_witness :
    (processQueue (fun _ => CallResult.httpError false) 7 (0 + 5) false
      { queue := [.action sampleEntry], hasRefreshQueued := false,
        tasks := [sampleAgg], pendingChanges := [.action sampleEntry],
        error := none }).delays = [1000, 2000, 4000, 8000] :=
  (retry_exhaustion_backoff_and_single_drop 0 7 sampleEntry sampleAgg
    { queue := [.action sampleEntry], hasRefreshQueued := false,
      tasks := [sampleAgg], pendingChanges := [.action sampleEntry], error := none }
    rfl rfl rfl rfl (Or.inl rfl) (fun _ => by decide) (fun h => absurd h (by decide))).1

/-! ## C8: increment/decrement with no eligible record -/

/-- C8 counterexample: an increment entry whose original snapshot has no
`PENDING` record fails client-side (`No pending tasks to complete`, no
backend call is ever made: `nextCall = 0`), yet after retry exhaustion the
core reverts — the aggregate's state IS modified (the `DONE` record is
flipped back to `PENDING` and the count drops), contradicting the claim
that the failed request leaves the aggregate unmodified. -/
theorem no_pending_task_state_modified_counterexample :
    (processQueue (fun _ => CallResult.httpError false) 0 20 false
      { queue := [.action sampleEntryNoPending], hasRefreshQueued := false,
        tasks := [sampleAggAllDone], pendingChanges := [.action sampleEntryNoPending],
        error := none }).nextCall = 0 ∧
    (processQueue (fun _ => CallResult.httpError false) 0 20 false
      { queue := [.action sampleEntryNoPending], hasRefreshQueued := false,
        tasks := [sampleAggAllDone], pendingChanges := [.action sampleEntryNoPending],
        error := none }).final.tasks ≠ [sampleAggAllDone] ∧
    (processQueue (fun _ => CallResult.httpError false) 0 20 false
      { queue := [.action sampleEntryNoPending], hasRefreshQueued := false,
        tasks := [sampleAggAllDone], pendingChanges := [.action sampleEntryNoPending],
        error := none }).final.tasks =
      [{ sampleAggAllDone with
           tasks := [{ sampleDone with status := "PENDING", finished_at := none }],
           executionCount := 0, isCompleted := false }] ∧
    (processQueue (fun _ => CallResult.httpError false) 0 20 false
      { queue := [.action sampleEntryNoPending], hasRefreshQueued := false,
        tasks := [sampleAggAllDone], pendingChanges := [.action sampleEntryNoPending],
        error := none }).errorMsgs.length = 1 := by
  decide

/-- C8 (amended): an increment (resp. decrement) entry whose original
snapshot has no `PENDING` (resp. `DONE`) record fails with the
`No pending tasks to complete` / `No done tasks to reopen` error before any
backend call (`nextCall = 0` — the oracle is arbitrary and never consulted);
the processor treats this like any other non-session failure — it retries
with backoff 1s, 2s, 4s, 8s, then removes the entry, performs the revert
compensation (which may modify the aggregate) and records one error
message, rather than leaving the state untouched. -/
theorem no_eligible_record_retry_then_revert (fuel now : Nat)
    (oracle : Nat → CallResult) (e : ActionEntry) (agg : TaskAggregate) (st : LoopState)
    (hq : st.queue = [.action e]) (ht : e.originalTask = some agg)
    (hrc : e.retryCount = 0) (hmr : e.maxRetries = 5)
    (hact : e.action = "increment" ∨ e.action = "decrement")
    (hel1 : e.action = "increment" →
      (agg.tasks.filter (fun r => r.status == "PENDING")).isEmpty = true)
    (hel2 : e.action = "decrement" →
      (agg.tasks.filter (fun r => r.status == "DONE")).isEmpty = true) :
    (processQueue oracle now (fuel + 5) false st).nextCall = 0 ∧
    (processQueue oracle now (fuel + 5) false st).delays = [1000, 2000, 4000, 8000] ∧
    (processQueue oracle now (fuel + 5) false st).reverts = [{ e with retryCount := 5 }] ∧
    (processQueue oracle now (fuel + 5) false st).errorMsgs =
      [if e.action = "increment" then
        "Failed to complete task after 5 attempts. Please try again."
       else "Failed to reopen task after 5 attempts. Please try again."] ∧
    (processQueue oracle now (fuel + 5) false st).final.queue = [] ∧
    (processQueue oracle now (fuel + 5) false st).final.tasks =
      (revertOptimisticUpdate st.tasks { e with retryCount := 5 } now).1 ∧
    (processQueue oracle now (fuel + 5) false st).raised = false := by
  have hdisp : ∀ (i : Nat) (a : ActionEntry), a.action = e.action →
      dispatchAction oracle i a agg = (false, .failTransient) := by
    intro i a ha
    rcases hact with h | h
    · unfold dispatchAction
      rw [ha, h]
      simp [hel1 h]
    · unfold dispatchAction
      rw [ha, h]
      simp [hel2 h]
  have h1 := @runLoop_action_retry oracle now
      (fuel + 4) st 0 e agg [] false
      hq ht (hdisp 0 e rfl) (by omega)
  simp [bumpRetry, hrc, insertBeforeRefresh, isRefreshEntry, isActionEntry] at h1
  rw [show fuel + 4 = fuel + 3 + 1 from rfl] at h1
  have h2 := @runLoop_action_retry oracle now
      (fuel + 3)
      ⟨[.action ⟨e.taskId, e.action, e.originalTask, e.timestamp, 1, e.maxRetries⟩],
       st.hasRefreshQueued, st.tasks,
       [.action ⟨e.taskId, e.action, e.originalTask, e.timestamp, 1, e.maxRetries⟩],
       st.error⟩
      0 ⟨e.taskId, e.action, e.originalTask, e.timestamp, 1, e.maxRetries⟩ agg [] false
      rfl ht (hdisp 0 _ rfl) (by simp [hmr])
  simp [bumpRetry, insertBeforeRefresh, isRefreshEntry, isActionEntry] at h2
  rw [h2] at h1
  simp at h1
  rw [show fuel + 3 = fuel + 2 + 1 from rfl] at h1
  have h3 := @runLoop_action_retry oracle now
      (fuel + 2)
      ⟨[.action ⟨e.taskId, e.action, e.originalTask, e.timestamp, 2, e.maxRetries⟩],
       st.hasRefreshQueued, st.tasks,
       [.action ⟨e.taskId, e.action, e.originalTask, e.timestamp, 2, e.maxRetries⟩],
       st.error⟩
      0 ⟨e.taskId, e.action, e.originalTask, e.timestamp, 2, e.maxRetries⟩ agg [] false
      rfl ht (hdisp 0 _ rfl) (by simp [hmr])
  simp [bumpRetry, insertBeforeRefresh, isRefreshEntry, isActionEntry] at h3
  rw [h3] at h1
  simp at h1
  rw [show fuel + 2 = fuel + 1 + 1 from rfl] at h1
  have h4 := @runLoop_action_retry oracle now
      (fuel + 1)
      ⟨[.action ⟨e.taskId, e.action, e.originalTask, e.timestamp, 3, e.maxRetries⟩],
       st.hasRefreshQueued, st.tasks,
       [.action ⟨e.taskId, e.action, e.originalTask, e.timestamp, 3, e.maxRetries⟩],
       st.error⟩
      0 ⟨e.taskId, e.action, e.originalTask, e.timestamp, 3, e.maxRetries⟩ agg [] false
      rfl ht (hdisp 0 _ rfl) (by simp [hmr])
  simp [bumpRetry, insertBeforeRefresh, isRefreshEntry, isActionEntry] at h4
  rw [h4] at h1
  simp at h1
  have h5 := @runLoop_action_drop oracle now
      fuel
      ⟨[.action ⟨e.taskId, e.action, e.originalTask, e.timestamp, 4, e.maxRetries⟩],
       st.hasRefreshQueued, st.tasks,
       [.action ⟨e.taskId, e.action, e.originalTask, e.timestamp, 4, e.maxRetries⟩],
       st.error⟩
      0 ⟨e.taskId, e.action, e.originalTask, e.timestamp, 4, e.maxRetries⟩ agg [] false
      rfl ht (hdisp 0 _ rfl) (by simp [hmr])
  simp [bumpRetry, insertBeforeRefresh, isRefreshEntry, isActionEntry] at h5
  rw [h5] at h1
  simp [runLoop_nil] at h1
  simp only [processQueue, Bool.false_eq_true, if_false]
  rw [show fuel + 5 = fuel + 1 + 1 + 1 + 1 + 1 from rfl, h1]
  rcases hact with ha | ha <;>
    refine ⟨by simp, by simp, by simp [hmr],
      by simp only [ha, hmr]; simp; decide,
      by simp, by simp [hmr], by simp⟩

/-- Witness for C8 (amended): the concrete no-pending increment entry is
dropped without ever consulting the backend. -/
theorem no_eligible_record_retry_then_revert_witness :
    (processQueue (fun _ => CallResult.httpError false) 3 (0 + 5) false
      { queue := [.action sampleEntryNoPending], hasRefreshQueued := false,
        tasks := [sampleAggAllDone], pendingChanges := [.action sampleEntryNoPending],
        error := none }).nextCall = 0 :=
  (no_eligible_record_retry_then_revert 0 3 (fun _ => CallResult.httpError false)
    sampleEntryNoPending sampleAggAllDone
    { queue := [.action sampleEntryNoPending], hasRefreshQueued := false,
      tasks := [sampleAggAllDone], pendingChanges := [.action sampleEntryNoPending],
      error := none }
    rfl rfl rfl rfl (Or.inl rfl) (fun _ => by decide) (fun h => absurd h (by decide))).1

/-! ## C5: syncWithBackend is a no-op while the queue is busy -/

/-- C5: whenever the queue is non-empty or a drain is in progress, a
`syncWithBackend` tick returns `null`, leaves the task list and error state
unchanged, performs no backend fetch and rethrows nothing. -/
theorem syncWithBackend_noop_when_busy (queue : List QueueEntry) (isProcessing : Bool)
    (tasks : List TaskAggregate) (error : Option String) (fetchResult : CallResult)
    (now : Nat) (h : queue ≠ [] ∨ isProcessing = true) :
    syncWithBackend queue isProcessing tasks error fetchResult now =
      { returned := none, tasks := tasks, error := error,
        backendCalled := false, raised := false } := by
  unfold syncWithBackend
  rw [if_pos ?_]
  rcases h with h | h
  · exact Or.inl (List.length_pos.2 h)
  · exact Or.inr h

/-- Witness for C5: a one-entry queue suppresses the sync tick. -/
theorem syncWithBackend_noop_when_busy_witness :
    syncWithBackend [.action sampleEntry] false [sampleAgg] none
      (.ok [sampleBackendT1]) 0 =
      { returned := none, tasks := [sampleAgg], error := none,
        backendCalled := false, raised := false } :=
  syncWithBackend_noop_when_busy [.action sampleEntry] false [sampleAgg] none
    (.ok [sampleBackendT1]) 0 (Or.inl (by decide))

/-! ## C10: revert is a complete no-op when the aggregate is absent -/

/-- C10: when no aggregate in the current state matches the failed entry's
`taskId`, `revertOptimisticUpdate` returns the state unchanged and performs
no `setState` (hence no subscriber notification). -/
theorem revert_noop_when_aggregate_absent (tasks : List TaskAggregate)
    (u : ActionEntry) (now : Nat)
    (h : tasks.find? (fun t => t.id == u.taskId) = none) :
    revertOptimisticUpdate tasks u now = (tasks, false) := by
  unfold revertOptimisticUpdate
  rw [h]

/-- Witness for C10: an entry targeting `T2` finds no aggregate in a state
holding only `T1`, and the revert changes nothing. -/
theorem revert_noop_when_aggregate_absent_witness :
    [sampleAgg].find?
      (fun t => t.id == ({ sampleEntry with taskId := "T2" } : ActionEntry).taskId) = none ∧
    revertOptimisticUpdate [sampleAgg] { sampleEntry with taskId := "T2" } 0 =
      ([sampleAgg], false) :=
  ⟨by decide,
   revert_noop_when_aggregate_absent [sampleAgg] { sampleEntry with taskId := "T2" } 0
     (by decide)⟩

/-! ## C9: visibility window of the fetched task list (spec-modelled) -/

/-- C9: a raw record appears in the visibility-filtered fetch result exactly
when it came from the fetch and either its status is `PENDING` or its
`finished_at` (falling back to `updated_at`) lies within the current week;
in particular a `DONE` or `DELIVERED` record finished outside the week is
excluded. -/
theorem getTasks_visibility_window (ws we : Nat) (l : List RawRecord) (r : RawRecord) :
    (r ∈ getTasksVisibleRecords ws we l ↔
      r ∈ l ∧ (r.status = "PENDING" ∨
        (ws ≤ r.finished_at.getD r.updated_at ∧ r.finished_at.getD r.updated_at ≤ we))) ∧
    ((r.status = "DONE" ∨ r.status = "DELIVERED") →
      ¬ (ws ≤ r.finished_at.getD r.updated_at ∧ r.finished_at.getD r.updated_at ≤ we) →
      r ∉ getTasksVisibleRecords ws we l) := by
  have hmem : r ∈ getTasksVisibleRecords ws we l ↔
      r ∈ l ∧ (r.status = "PENDING" ∨
        (ws ≤ r.finished_at.getD r.updated_at ∧ r.finished_at.getD r.updated_at ≤ we)) := by
    unfold getTasksVisibleRecords visibleInCurrentWeek
    rw [List.mem_filter]
    simp [Bool.or_eq_true, Bool.and_eq_true]
  refine ⟨hmem, ?_⟩
  intro hs hw hin
  rcases (hmem.1 hin).2 with hp | hwin
  · rcases hs with h | h <;> rw [h] at hp <;> exact absurd hp (by decide)
  · exact hw hwin

/-- Witness for C9: a `DONE` record finished at time 20 is excluded from a
week spanning `[100, 200]`. -/
theorem getTasks_visibility_window_witness :
    sampleDone ∉ getTasksVisibleRecords 100 200 [sampleDone] :=
  (getTasks_visibility_window 100 200 [sampleDone] sampleDone).2
    (Or.inl (by decide)) (by decide)

/-! ## C4: conflict detection marks exactly the count mismatches -/

/-- C4: `detectConflicts` maps the backend list element for element (backend
aggregates win, no merge); when the local aggregate ids are distinct, the
i-th backend aggregate is returned conflict-marked (with the timestamp set)
exactly when a local aggregate with the same id exists with a different
`executionCount`, and unchanged when the counts agree or no local aggregate
carries that id. -/
theorem detectConflicts_backend_wins_iff_count_mismatch
    (L B : List TaskAggregate) (now : Nat)
    (hids : (L.map (fun t => t.id)).Nodup) :
    (detectConflicts L B now).length = B.length ∧
    ∀ i : Nat, i < B.length → ∀ b : TaskAggregate, B[i]? = some b →
      (detectConflicts L B now)[i]? = some
        (if ∃ l ∈ L, l.id = b.id ∧ l.executionCount ≠ b.executionCount
         then { b with hasConflict := true, conflictTimestamp := some now }
         else b) := by
  constructor
  · unfold detectConflicts
    exact List.length_map B _
  · intro i hi b hb
    unfold detectConflicts
    rw [List.getElem?_map, hb, Option.map_some']
    congr 1
    rcases hf : L.find? (fun t => t.id == b.id) with _ | lt
    · have hnone := List.find?_eq_none.1 hf
      have hcond : ¬ ∃ l ∈ L, l.id = b.id ∧ l.executionCount ≠ b.executionCount := by
        rintro ⟨l, hl, hlid, _⟩
        exact hnone l hl (by simp [hlid])
      rw [hf, if_neg hcond]
    · have hmem := List.mem_of_find?_eq_some hf
      have hid : lt.id = b.id := by simpa using List.find?_some hf
      rw [hf]
      by_cases hne : lt.executionCount = b.executionCount
      · have hcond : ¬ ∃ l ∈ L, l.id = b.id ∧ l.executionCount ≠ b.executionCount := by
          rintro ⟨l, hl, hlid, hlc⟩
          have heq : l = lt := List.inj_on_of_nodup_map hids hl hmem (by rw [hlid, hid])
          rw [heq, hne] at hlc
          exact hlc rfl
        rw [if_neg hcond]
        simp [hne]
      · rw [if_pos ⟨lt, hmem, hid, hne⟩]
        simp [hne]

/-- Witness for C4: local count 3 against backend count 5 yields the backend
aggregate marked `hasConflict` with the tick's timestamp. -/
theorem detectConflicts_backend_wins_iff_count_mismatch_witness :
    (detectConflicts [sampleLocalT1] [sampleBackendT1] 99)[0]? =
      some { sampleBackendT1 with hasConflict := true, conflictTimestamp := some 99 } := by
  have h := (detectConflicts_backend_wins_iff_count_mismatch
    [sampleLocalT1] [sampleBackendT1] 99 (by decide)).2 0 (by decide)
    sampleBackendT1 (by decide)
  rw [h, if_pos (by decide)]

/-! ## C6: revert compensation -/

lemma foldl_pickMax_spec (key : RawRecord → Nat) :
    ∀ (xs : List RawRecord) (b : RawRecord),
      (xs.foldl (fun best y => if key best < key y then y else best) b = b ∨
        xs.foldl (fun best y => if key best < key y then y else best) b ∈ xs) ∧
      key b ≤ key (xs.foldl (fun best y => if key best < key y then y else best) b) ∧
      ∀ y ∈ xs, key y ≤ key (xs.foldl (fun best y => if key best < key y then y else best) b) := by
  intro xs
  induction xs with
  | nil => intro b; exact ⟨Or.inl rfl, le_refl _, by simp⟩
  | cons x xs ih =>
    intro b
    rw [List.foldl_cons]
    by_cases hx : key b < key x
    · rw [if_pos hx]
      obtain ⟨hmem, hle, hall⟩ := ih x
      refine ⟨?_, le_trans (le_of_lt hx) hle, ?_⟩
      · rcases hmem with h | h
        · rw [h]; exact Or.inr (List.mem_cons_self x xs)
        · exact Or.inr (List.mem_cons_of_mem x h)
      · intro y hy
        rcases List.mem_cons.1 hy with rfl | hy
        · exact hle
        · exact hall y hy
    · rw [if_neg hx]
      obtain ⟨hmem, hle, hall⟩ := ih b
      refine ⟨?_, hle, ?_⟩
      · rcases hmem with h | h
        · exact Or.inl h
        · exact Or.inr (List.mem_cons_of_mem x h)
      · intro y hy
        rcases List.mem_cons.1 hy with rfl | hy
        · exact le_trans (by omega) hle
        · exact hall y hy

lemma selectFirstMaxBy_eq_none (key : RawRecord → Nat) (l : List RawRecord) :
    selectFirstMaxBy key l = none ↔ l = [] := by
  cases l <;> simp [selectFirstMaxBy]

lemma selectFirstMaxBy_spec (key : RawRecord → Nat) (l : List RawRecord) (r : RawRecord)
    (h : selectFirstMaxBy key l = some r) :
    r ∈ l ∧ ∀ y ∈ l, key y ≤ key r := by
  match l with
  | [] => simp [selectFirstMaxBy] at h
  | x :: xs =>
    rw [selectFirstMaxBy] at h
    obtain ⟨hmem, hle, hall⟩ := foldl_pickMax_spec key xs x
    have hr : xs.foldl (fun best y => if key best < key y then y else best) x = r := by
      injection h
    rw [hr] at hmem hle hall
    constructor
    · rcases hmem with h' | h'
      · rw [h']; exact List.mem_cons_self x xs
      · exact List.mem_cons_of_mem x h'
    · intro y hy
      rcases List.mem_cons.1 hy with rfl | hy
      · exact hle
      · exact hall y hy

lemma find?_map_pres (m : TaskAggregate → TaskAggregate) (p : TaskAggregate → Bool)
    (hp : ∀ t, p (m t) = p t) :
    ∀ (l : List TaskAggregate), (l.map m).find? p = (l.find? p).map m := by
  intro l
  induction l with
  | nil => rfl
  | cons t ts ih =>
    rw [List.map_cons]
    by_cases hpt : p t = true
    · rw [List.find?_cons_of_pos _ (by rw [hp]; exact hpt),
          List.find?_cons_of_pos _ hpt, Option.map_some']
    · rw [List.find?_cons_of_neg _ (by rw [hp]; simpa using hpt),
          List.find?_cons_of_neg _ (by simpa using hpt), ih]

/-- C6: for an aggregate present in the state, reverting a failed increment
sets its `executionCount` to `max(count - 1, 0)` and flips the `DONE`
record with the most recent `finished_at` (falling back to `created_at`)
back to `PENDING`; reverting a failed decrement sets the count to
`min(count + 1, targetCount)` and sets the most recently created `PENDING`
record to `DONE`; in both cases `isCompleted` is recomputed as
`count == targetCount ∧ targetCount > 0` and `hasConflict` is cleared. -/
theorem revert_compensation_matches_action (tasks : List TaskAggregate) (u : ActionEntry) (now : Nat)
    (g : TaskAggregate)
    (hfind : tasks.find? (fun t => t.id == u.taskId) = some g) :
    ∃ g', (revertOptimisticUpdate tasks u now).1.find? (fun t => t.id == u.taskId) = some g' ∧
      (revertOptimisticUpdate tasks u now).2 = true ∧
      g'.targetCount = g.targetCount ∧
      g'.hasConflict = false ∧
      (g'.isCompleted = true ↔ (g'.executionCount = g'.targetCount ∧ 0 < g'.targetCount)) ∧
      (u.action = "increment" →
        g'.executionCount = max (g.executionCount - 1) 0 ∧
        ((g.tasks.filter (fun r => r.status == "DONE") = [] ∧ g'.tasks = g.tasks) ∨
         (∃ tr, tr ∈ g.tasks ∧ tr.status = "DONE" ∧
            (∀ r ∈ g.tasks, r.status = "DONE" → dateKeyDone r ≤ dateKeyDone tr) ∧
            g'.tasks = g.tasks.map (fun subTask =>
              if subTask.id == tr.id then
                { subTask with status := "PENDING", finished_at := none }
              else subTask)))) ∧
      (u.action = "decrement" →
        g'.executionCount = min (g.executionCount + 1) g.targetCount ∧
        ((g.tasks.filter (fun r => r.status == "PENDING") = [] ∧ g'.tasks = g.tasks) ∨
         (∃ tr, tr ∈ g.tasks ∧ tr.status = "PENDING" ∧
            (∀ r ∈ g.tasks, r.status = "PENDING" → r.created_at ≤ tr.created_at) ∧
            g'.tasks = g.tasks.map (fun subTask =>
              if subTask.id == tr.id then
                { subTask with status := "DONE", finished_at := some now }
              else subTask)))) := by
  have hp : (g.id == u.taskId) = true := by simpa using List.find?_some hfind
  have hfst : (revertOptimisticUpdate tasks u now).1 =
      tasks.map (revertUpdateGroup u now g) := by
    unfold revertOptimisticUpdate
    rw [hfind]
  have hsnd : (revertOptimisticUpdate tasks u now).2 = true := by
    unfold revertOptimisticUpdate
    rw [hfind]
  have hpres : ∀ t : TaskAggregate,
      ((revertUpdateGroup u now g t).id == u.taskId) = (t.id == u.taskId) := by
    intro t
    unfold revertUpdateGroup
    by_cases h : (t.id == u.taskId) = true
    · rw [if_pos h]
    · rw [if_neg h]
  have hfind2 : (tasks.map (revertUpdateGroup u now g)).find?
      (fun t => t.id == u.taskId) = some (revertUpdateGroup u now g g) := by
    rw [find?_map_pres _ _ hpres tasks, hfind, Option.map_some']
  have hgW : revertUpdateGroup u now g g =
      { g with tasks := revertedSubTasksOf g u now,
               executionCount := revertedCountOf g u,
               isCompleted := revertedCountOf g u == g.targetCount &&
                 decide ((0 : Int) < g.targetCount),
               hasConflict := false } := by
    unfold revertUpdateGroup
    rw [if_pos hp]
  refine ⟨revertUpdateGroup u now g g, by rw [hfst, hfind2], hsnd, ?_, ?_, ?_, ?_, ?_⟩
  · rw [hgW]
  · rw [hgW]
  · rw [hgW]
    simp
  · intro ha
    have hb : (u.action == "increment") = true := by simp [ha]
    rw [hgW]
    constructor
    · show revertedCountOf g u = _
      unfold revertedCountOf
      rw [if_pos hb]
    · show _ ∨ _
      unfold revertedSubTasksOf
      rw [if_pos hb]
      rcases hsel : selectFirstMaxBy dateKeyDone
          (g.tasks.filter (fun r => r.status == "DONE")) with _ | tr
      · exact Or.inl ⟨(selectFirstMaxBy_eq_none _ _).1 hsel, rfl⟩
      · obtain ⟨htrmem, hmax⟩ := selectFirstMaxBy_spec _ _ _ hsel
        obtain ⟨hmem, hst⟩ := List.mem_filter.1 htrmem
        refine Or.inr ⟨tr, hmem, by simpa using hst, ?_, rfl⟩
        intro r hr hrst
        exact hmax r (List.mem_filter.2 ⟨hr, by simp [hrst]⟩)
  · intro ha
    have hb : (u.action == "increment") = false := by simp [ha]
    rw [hgW]
    constructor
    · show revertedCountOf g u = _
      unfold revertedCountOf
      rw [if_neg (by simp [hb])]
    · show _ ∨ _
      unfold revertedSubTasksOf
      rw [if_neg (by simp [hb])]
      rcases hsel : selectFirstMaxBy (fun r => r.created_at)
          (g.tasks.filter (fun r => r.status == "PENDING")) with _ | tr
      · exact Or.inl ⟨(selectFirstMaxBy_eq_none _ _).1 hsel, rfl⟩
      · obtain ⟨htrmem, hmax⟩ := selectFirstMaxBy_spec _ _ _ hsel
        obtain ⟨hmem, hst⟩ := List.mem_filter.1 htrmem
        refine Or.inr ⟨tr, hmem, by simpa using hst, ?_, rfl⟩
        intro r hr hrst
        exact hmax r (List.mem_filter.2 ⟨hr, by simp [hrst]⟩)

/-- Witness for C6: reverting the concrete failed increment on `sampleAgg`
yields an aggregate found under `T1`. -/
theorem revert_compensation_matches_action_witness :
    ((revertOptimisticUpdate [sampleAgg] sampleEntry 42).1.find?
      (fun t => t.id == sampleEntry.taskId)).isSome = true := by
  obtain ⟨g2, hg2, _⟩ := revert_compensation_matches_action [sampleAgg] sampleEntry 42
    sampleAgg (by decide)
  rw [hg2]
  rfl

/-! ## C7: aggregation by template id -/

lemma mem_foldl_firstSeen (k : String) :
    ∀ (xs acc : List String),
      (k ∈ xs.foldl (fun acc k => if k ∈ acc then acc else acc ++ [k]) acc ↔
        k ∈ acc ∨ k ∈ xs) := by
  intro xs
  induction xs with
  | nil => intro acc; simp
  | cons x xs ih =>
    intro acc
    rw [List.foldl_cons, ih]
    by_cases hx : x ∈ acc
    · rw [if_pos hx]
      constructor
      · rintro (h | h)
        · exact Or.inl h
        · exact Or.inr (List.mem_cons_of_mem x h)
      · rintro (h | h)
        · exact Or.inl h
        · rcases List.mem_cons.1 h with rfl | h
          · exact Or.inl hx
          · exact Or.inr h
    · rw [if_neg hx]
      constructor
      · rintro (h | h)
        · rcases List.mem_append.1 h with h | h
          · exact Or.inl h
          · simp only [List.mem_singleton] at h
            exact Or.inr (h ▸ List.mem_cons_self x xs)
        · exact Or.inr (List.mem_cons_of_mem x h)
      · rintro (h | h)
        · exact Or.inl (List.mem_append.2 (Or.inl h))
        · rcases List.mem_cons.1 h with rfl | h
          · exact Or.inl (by simp)
          · exact Or.inr h

lemma mem_firstSeenKeys (k : String) (xs : List String) :
    k ∈ firstSeenKeys xs ↔ k ∈ xs := by
  unfold firstSeenKeys
  rw [mem_foldl_firstSeen]
  simp

lemma nodup_foldl_firstSeen :
    ∀ (xs acc : List String), acc.Nodup →
      (xs.foldl (fun acc k => if k ∈ acc then acc else acc ++ [k]) acc).Nodup := by
  intro xs
  induction xs with
  | nil => intro acc h; simpa using h
  | cons x xs ih =>
    intro acc h
    rw [List.foldl_cons]
    by_cases hx : x ∈ acc
    · rw [if_pos hx]; exact ih acc h
    · rw [if_neg hx]
      refine ih _ ?_
      rw [List.nodup_append]
      exact ⟨h, List.nodup_singleton x, by simpa [List.disjoint_singleton] using hx⟩

lemma nodup_firstSeenKeys (xs : List String) : (firstSeenKeys xs).Nodup :=
  nodup_foldl_firstSeen xs [] List.nodup_nil

lemma firstSeenKeys_concat (xs : List String) (k : String) :
    firstSeenKeys (xs ++ [k]) =
      if k ∈ firstSeenKeys xs then firstSeenKeys xs else firstSeenKeys xs ++ [k] := by
  unfold firstSeenKeys
  rw [List.foldl_append, List.foldl_cons, List.foldl_nil]

lemma any_id_eq (G : List TaskGroup) (key : String) :
    G.any (fun g => g.id == key) = true ↔ key ∈ G.map (fun g => g.id) := by
  rw [List.any_eq_true]
  constructor
  · rintro ⟨g, hg, hid⟩
    exact List.mem_map.2 ⟨g, hg, by simpa using hid⟩
  · rintro h
    obtain ⟨g, hg, hid⟩ := List.mem_map.1 h
    exact ⟨g, hg, by simp [hid]⟩

lemma addRecord_existing (G : List TaskGroup) (t : RawRecord)
    (h : G.any (fun g => g.id == templateKey t) = true) :
    addRecord G t =
      G.map (fun g => if g.id == templateKey t then touchGroup t g else g) := by
  simp only [addRecord]
  rw [if_pos h]

lemma addRecord_new (G : List TaskGroup) (t : RawRecord)
    (h : ¬ G.any (fun g => g.id == templateKey t) = true) :
    addRecord G t = (G ++ [newGroupFor t]).map
      (fun g => if g.id == templateKey t then touchGroup t g else g) := by
  simp only [addRecord]
  rw [if_neg h]



lemma filter_singleton_miss (t : RawRecord) (key : String)
    (hne : ¬ key = templateKey t) :
    List.filter (fun x => templateKey x == key) [t] = [] := by
  simp only [List.filter, List.filter_nil]
  rw [show (templateKey t == key) = false from ?_]
  rw [beq_eq_false_iff_ne]
  exact fun hh => hne hh.symm

lemma filter_done_singleton_miss (t : RawRecord) (key : String)
    (hne : ¬ key = templateKey t) :
    List.filter (fun x => (templateKey x == key) && isDoneStatus x.status) [t] = [] := by
  simp only [List.filter, List.filter_nil]
  rw [show ((templateKey t == key) && isDoneStatus t.status) = false from ?_]
  rw [Bool.and_eq_false_iff]
  left
  rw [beq_eq_false_iff_ne]
  exact fun hh => hne hh.symm

lemma stats_extend_miss (hist : List RawRecord) (t : RawRecord) (g : TaskGroup)
    (hne : ¬ g.id = templateKey t)
    (h1 : g.tasks = hist.filter (fun x => templateKey x == g.id))
    (h2 : g.targetCount = (hist.filter (fun x => templateKey x == g.id)).length)
    (h3 : g.executionCount =
      (hist.filter (fun x => (templateKey x == g.id) && isDoneStatus x.status)).length) :
    g.tasks = (hist ++ [t]).filter (fun x => templateKey x == g.id) ∧
    g.targetCount = ((hist ++ [t]).filter (fun x => templateKey x == g.id)).length ∧
    g.executionCount =
      ((hist ++ [t]).filter (fun x => (templateKey x == g.id) && isDoneStatus x.status)).length := by
  rw [List.filter_append, List.filter_append,
      filter_singleton_miss t g.id hne, filter_done_singleton_miss t g.id hne,
      List.append_nil, List.append_nil]
  exact ⟨h1, h2, h3⟩

lemma stats_extend_hit (hist : List RawRecord) (t : RawRecord) (g : TaskGroup)
    (heq : g.id = templateKey t)
    (h1 : g.tasks = hist.filter (fun x => templateKey x == g.id))
    (h2 : g.targetCount = (hist.filter (fun x => templateKey x == g.id)).length)
    (h3 : g.executionCount =
      (hist.filter (fun x => (templateKey x == g.id) && isDoneStatus x.status)).length) :
    g.tasks ++ [t] = (hist ++ [t]).filter (fun x => templateKey x == g.id) ∧
    g.targetCount + 1 = ((hist ++ [t]).filter (fun x => templateKey x == g.id)).length ∧
    g.executionCount + (if isDoneStatus t.status then 1 else 0) =
      ((hist ++ [t]).filter (fun x => (templateKey x == g.id) && isDoneStatus x.status)).length := by
  have hkey : (templateKey t == g.id) = true := by simp [heq]
  have e1 : List.filter (fun x => templateKey x == g.id) [t] = [t] := by
    simp only [List.filter, List.filter_nil]
    rw [hkey]
  have e2 : List.filter (fun x => (templateKey x == g.id) && isDoneStatus x.status) [t] =
      if isDoneStatus t.status then [t] else [] := by
    by_cases hd : isDoneStatus t.status = true
    · simp only [List.filter, List.filter_nil]
      rw [hkey, hd]
      simp
    · simp only [List.filter, List.filter_nil]
      rw [hkey]
      simp only [Bool.true_and]
      rw [show isDoneStatus t.status = false by simpa using hd]
      simp [show ¬ isDoneStatus t.status = true from hd]
  refine ⟨?_, ?_, ?_⟩
  · rw [List.filter_append, e1, h1]
  · rw [List.filter_append, List.length_append, e1, h2]
    simp
  · rw [List.filter_append, List.length_append, e2, h3]
    by_cases hd : isDoneStatus t.status = true <;> simp [hd]



lemma addRecord_foldl_spec (l : List RawRecord) :
    ((l.foldl addRecord []).map (fun g => g.id) = firstSeenKeys (l.map templateKey)) ∧
    ∀ g ∈ l.foldl addRecord [],
      g.tasks = l.filter (fun t => templateKey t == g.id) ∧
      g.targetCount = (l.filter (fun t => templateKey t == g.id)).length ∧
      g.executionCount =
        (l.filter (fun t => (templateKey t == g.id) && isDoneStatus t.status)).length := by
  induction l using List.reverseRecOn with
  | nil => exact ⟨rfl, by simp⟩
  | append_singleton hist t ih =>
    obtain ⟨hids, hstats⟩ := ih
    rw [List.foldl_append, List.foldl_cons, List.foldl_nil]
    by_cases hin : (hist.foldl addRecord []).any (fun g => g.id == templateKey t) = true
    · rw [addRecord_existing _ _ hin]
      have hkeymem : templateKey t ∈ firstSeenKeys (hist.map templateKey) := by
        rw [← hids]
        exact (any_id_eq _ _).1 hin
      have hcomp : ∀ g : TaskGroup,
          ((if g.id == templateKey t then touchGroup t g else g)).id = g.id := by
        intro g
        by_cases h : (g.id == templateKey t) = true
        · rw [if_pos h]; rfl
        · rw [if_neg h]
      constructor
      · rw [List.map_map]
        rw [show ((fun g => g.id) ∘ fun g : TaskGroup =>
            if g.id == templateKey t then touchGroup t g else g) =
            (fun g : TaskGroup => g.id) from funext hcomp]
        rw [hids, List.map_append, show List.map templateKey [t] = [templateKey t] from rfl,
            firstSeenKeys_concat, if_pos hkeymem]
      · intro g' hg'
        obtain ⟨g, hgG, hEq⟩ := List.mem_map.1 hg'
        obtain ⟨ht1, ht2, ht3⟩ := hstats g hgG
        by_cases h : (g.id == templateKey t) = true
        · rw [if_pos h] at hEq
          subst hEq
          exact stats_extend_hit hist t g (by simpa using h) ht1 ht2 ht3
        · rw [if_neg h] at hEq
          subst hEq
          exact stats_extend_miss hist t g (by simpa using h) ht1 ht2 ht3
    · rw [addRecord_new _ _ hin]
      have hnotmem : templateKey t ∉ (hist.foldl addRecord []).map (fun g => g.id) :=
        fun hmm => hin ((any_id_eq _ _).2 hmm)
      have hnotseen : templateKey t ∉ firstSeenKeys (hist.map templateKey) := by
        rw [← hids]; exact hnotmem
      have hnothist : ∀ x ∈ hist, ¬ templateKey x = templateKey t := by
        intro x hx hEq
        exact hnotseen ((mem_firstSeenKeys _ _).2 (hEq ▸ List.mem_map_of_mem templateKey hx))
      have hGfix : ∀ g ∈ hist.foldl addRecord [], (g.id == templateKey t) = false := by
        intro g hg
        rw [beq_eq_false_iff_ne]
        intro hEq
        exact hnotmem (hEq ▸ List.mem_map_of_mem (fun g => g.id) hg)
      have hmapG : (hist.foldl addRecord []).map
          (fun g => if g.id == templateKey t then touchGroup t g else g) =
          hist.foldl addRecord [] := by
        conv_rhs => rw [← List.map_id (hist.foldl addRecord [])]
        apply List.map_congr_left
        intro g hg
        rw [if_neg (by simp [hGfix g hg]), id]
      have hnew : (if (newGroupFor t).id == templateKey t
            then touchGroup t (newGroupFor t) else newGroupFor t) =
          touchGroup t (newGroupFor t) := by
        rw [if_pos (by simp [newGroupFor])]
      constructor
      · rw [List.map_append, hmapG, List.map_append, hids]
        rw [show List.map (fun g => if g.id == templateKey t then touchGroup t g else g)
              [newGroupFor t] = [touchGroup t (newGroupFor t)] by rw [List.map_singleton, hnew]]
        rw [show List.map (fun g : TaskGroup => g.id) [touchGroup t (newGroupFor t)] =
              [templateKey t] from rfl]
        rw [List.map_append, show List.map templateKey [t] = [templateKey t] from rfl,
            firstSeenKeys_concat, if_neg hnotseen]
      · intro g' hg'
        rw [List.map_append, hmapG,
            show List.map (fun g => if g.id == templateKey t then touchGroup t g else g)
              [newGroupFor t] = [touchGroup t (newGroupFor t)] by
                rw [List.map_singleton, hnew]] at hg'
        rcases List.mem_append.1 hg' with hgG | hgnew
        · obtain ⟨ht1, ht2, ht3⟩ := hstats g' hgG
          have hgid : ¬ g'.id = templateKey t := by
            have := hGfix g' hgG
            rw [beq_eq_false_iff_ne] at this
            exact this
          exact stats_extend_miss hist t g' hgid ht1 ht2 ht3
        · simp only [List.mem_singleton] at hgnew
          subst hgnew
          have hfe : hist.filter (fun x => templateKey x == templateKey t) = [] := by
            rw [List.filter_eq_nil_iff]
            intro x hx
            simp only [beq_iff_eq]
            exact hnothist x hx
          have hfe2 : hist.filter
              (fun x => (templateKey x == templateKey t) && isDoneStatus x.status) = [] := by
            rw [List.filter_eq_nil_iff]
            intro x hx
            rw [Bool.and_eq_true]
            rintro ⟨h1, _⟩
            exact hnothist x hx (by simpa using h1)
          simp only [show (touchGroup t (newGroupFor t)).id = templateKey t from rfl]
          refine ⟨?_, ?_, ?_⟩
          · show ([] : List RawRecord) ++ [t] = _
            rw [List.filter_append, hfe]
            simp [List.filter]
          · show 0 + 1 = _
            rw [List.filter_append, hfe]
            simp [List.filter]
          · show 0 + (if isDoneStatus t.status then 1 else 0) = _
            rw [List.filter_append, hfe2]
            by_cases hd : isDoneStatus t.status = true <;> simp [List.filter, hd]



/-- C7: `aggregateTasks` groups raw records by `action_template_id`
(falling back to the record's own id); each group's `targetCount` is the
number of records of the group, its `executionCount` the number of those
with status `DONE` or `DELIVERED`, `isCompleted` holds exactly when the two
counts agree and are positive, and the groups appear in first-seen key
order. -/
theorem aggregateTasks_groups_spec (l : List RawRecord) :
    (aggregateTasks l).map (fun a => a.id) = firstSeenKeys (l.map templateKey) ∧
    ∀ a ∈ aggregateTasks l,
      a.tasks = l.filter (fun t => templateKey t == a.id) ∧
      a.targetCount = ((l.filter (fun t => templateKey t == a.id)).length : Int) ∧
      a.executionCount =
        ((l.filter (fun t => (templateKey t == a.id) && isDoneStatus t.status)).length : Int) ∧
      (a.isCompleted = true ↔ (a.executionCount = a.targetCount ∧ 0 < a.targetCount)) := by
  obtain ⟨hids, hstats⟩ := addRecord_foldl_spec l
  constructor
  · unfold aggregateTasks
    rw [List.map_map]
    exact hids
  · intro a ha
    unfold aggregateTasks at ha
    obtain ⟨g, hgG, hEq⟩ := List.mem_map.1 ha
    obtain ⟨ht1, ht2, ht3⟩ := hstats g hgG
    subst hEq
    refine ⟨ht1, ?_, ?_, ?_⟩
    · exact congrArg (fun n : Nat => (n : Int)) ht2
    · exact congrArg (fun n : Nat => (n : Int)) ht3
    · show (g.executionCount == g.targetCount && decide (0 < g.targetCount)) = true ↔
        ((g.executionCount : Int) = (g.targetCount : Int) ∧ (0 : Int) < (g.targetCount : Int))
      rw [Bool.and_eq_true, beq_iff_eq, decide_eq_true_eq]
      constructor
      · rintro ⟨h1, h2⟩
        constructor <;> omega
      · rintro ⟨h1, h2⟩
        constructor <;> omega

/-- Witness for C7: the two-record `T1` list aggregates to a single group
with one done unit out of two, and its completion flag matches its counts. -/
theorem aggregateTasks_groups_spec_witness :
    (({ id := "T1", name := "Walk", teamName := none,
        tasks := [samplePending, sampleDone], executionCount := 1, targetCount := 2,
        isCompleted := false, hasConflict := false,
        conflictTimestamp := none } : TaskAggregate).isCompleted = true ↔
      (({ id := "T1", name := "Walk", teamName := none,
          tasks := [samplePending, sampleDone], executionCount := 1, targetCount := 2,
          isCompleted := false, hasConflict := false,
          conflictTimestamp := none } : TaskAggregate).executionCount =
        ({ id := "T1", name := "Walk", teamName := none,
           tasks := [samplePending, sampleDone], executionCount := 1, targetCount := 2,
           isCompleted := false, hasConflict := false,
           conflictTimestamp := none } : TaskAggregate).targetCount ∧
       0 < ({ id := "T1", name := "Walk", teamName := none,
              tasks := [samplePending, sampleDone], executionCount := 1, targetCount := 2,
              isCompleted := false, hasConflict := false,
              conflictTimestamp := none } : TaskAggregate).targetCount)) :=
  ((aggregateTasks_groups_spec [samplePending, sampleDone]).2
    { id := "T1", name := "Walk", teamName := none,
      tasks := [samplePending, sampleDone], executionCount := 1, targetCount := 2,
      isCompleted := false, hasConflict := false, conflictTimestamp := none }
    (by decide)).2.2.2

end HealthGo
